import Mathlib

/-!
Shallow embedding of the news-scraper module `scrapers.py` of this
repository, together with theorems checking the specification's claims
against it.

Modelling conventions:
* Python strings are Lean `String`s; character-level work is done on
  `String.data : List Char`. Python `len` and Lean `String.length` both
  count code points.
* Python's `str.strip()` is modelled by `pyStrip` (ASCII whitespace).
* Every call of `str.replace` in the source has a one-character pattern
  and a one-character replacement, for which Python's `replace` is
  exactly a character map; `replaceChar` embeds those call sites.
* `urllib.parse.urljoin` is modelled by `urljoin` below, restricted to
  the hierarchical cases the scraper exercises (no query/fragment or
  dot-segment handling; the scheme of the result is preserved verbatim
  rather than lower-cased).
* BeautifulSoup DOM selection is abstracted: each extractor receives the
  list of candidate items (list items / anchors / feed entries) and the
  per-item field texts the source reads from the DOM, and the embedded
  function reproduces the per-item logic of the source loop.
* The thread pool's `as_completed` collection order is modelled by
  letting the aggregator take the per-site results in an arbitrary
  arrival order; runs of the real program correspond to arrival orders
  that are permutations of the per-site result list.
-/

/-- Character-list version of "is a prefix of": `isPrefixCs pat s` is true
iff `pat` is an initial segment of `s` (Python `str.startswith`). -/
def isPrefixCs : List Char → List Char → Bool
  | [], _ => true
  | _ :: _, [] => false
  | a :: as, b :: bs => a == b && isPrefixCs as bs

/-- Character-list substring test: true iff `pat` occurs contiguously in
`s` (Python's `pat in s`). -/
def isInfixCs (pat : List Char) : List Char → Bool
  | [] => isPrefixCs pat []
  | c :: cs => isPrefixCs pat (c :: cs) || isInfixCs pat cs

/-- Python's substring operator `pat in s` on strings. -/
def inStr (pat s : String) : Bool := isInfixCs pat.data s.data

/-- Lexicographic (code-point) `≤` on character lists, Python's string
comparison. -/
def lexLe : List Char → List Char → Bool
  | [], _ => true
  | _ :: _, [] => false
  | a :: as, b :: bs => if a = b then lexLe as bs else decide (a < b)

/-- ASCII whitespace recognised by the model of Python's `str.strip` and
of the regex class `\s`. -/
def isWsChar (c : Char) : Bool := c == ' ' || c == '\t' || c == '\r' || c == '\n'

/-- Model of Python `str.strip()`: drop whitespace from both ends. -/
def trimCs (cs : List Char) : List Char :=
  ((cs.dropWhile isWsChar).reverse.dropWhile isWsChar).reverse

/-- Model of Python `str.strip()` on `String`. -/
def pyStrip (s : String) : String := ⟨trimCs s.data⟩

/-- Model of Python `str.replace(a, b)` for the one-character patterns
used in the source (`.replace("/", "-")` and `.replace(".", "-")`): for a
one-character pattern and replacement, Python's `replace` is exactly a
character-wise map. -/
def replaceChar (a b : Char) (cs : List Char) : List Char :=
  cs.map fun c => if c = a then b else c

/-- String wrapper for `replaceChar`. -/
def strReplaceChar (a b : Char) (s : String) : String := ⟨replaceChar a b s.data⟩

/-- Characters allowed after the first character of a URL scheme
(`urllib.parse`'s `scheme_chars`). -/
def schemeChar (c : Char) : Bool :=
  c.isAlpha || c.isDigit || c == '+' || c == '-' || c == '.'

/-- Scan scheme characters until a colon; returns the scheme characters
read and the remainder after the colon, or `none` if no well-formed
scheme terminator is found. -/
def splitSchemeAux : List Char → Option (List Char × List Char)
  | [] => none
  | c :: cs =>
    if c = ':' then some ([], cs)
    else if schemeChar c then (splitSchemeAux cs).map (fun p => (c :: p.1, p.2))
    else none

/-- Split a leading URL scheme (letter followed by scheme characters and
a colon), as `urllib.parse.urlsplit` recognises one; returns the scheme
(without the colon) and the rest. -/
def splitSchemeCs : List Char → Option (List Char × List Char)
  | [] => none
  | c :: cs =>
    if c.isAlpha then (splitSchemeAux cs).map (fun p => (c :: p.1, p.2))
    else none

/-- A URL is absolute when it carries a scheme. -/
def isAbsoluteUrl (s : String) : Bool := (splitSchemeCs s.data).isSome

/-- The directory part of a URL path: everything up to and including the
last `/`, or `/` itself when the path has no slash (the base path of the
configured listing URLs always begins with `/`). -/
def dirPart (p : List Char) : List Char :=
  let r := (p.reverse.dropWhile (fun c => !(c == '/'))).reverse
  if r = [] then ['/'] else r

/-- Model of `urllib.parse.urljoin base rel` for the hierarchical URLs the
scraper handles: an empty reference yields the base; a reference with its
own scheme is returned unchanged; a network-path (`//…`), absolute-path
(`/…`) or relative-path reference is resolved against the base's scheme,
authority and directory. Query/fragment and dot-segment processing are
not modelled, and a same-scheme reference is returned verbatim instead of
being re-composed. -/
def urljoinCs (base rel : List Char) : List Char :=
  if rel = [] then base
  else
    match splitSchemeCs rel with
    | some _ => rel
    | none =>
      match splitSchemeCs base with
      | none => rel
      | some (sch, rest) =>
        if isPrefixCs ['/', '/'] rel then sch ++ ':' :: rel
        else
          let netloc :=
            if isPrefixCs ['/', '/'] rest then
              (rest.drop 2).takeWhile (fun c => !(c == '/'))
            else []
          let bpath :=
            if isPrefixCs ['/', '/'] rest then
              (rest.drop 2).dropWhile (fun c => !(c == '/'))
            else rest
          if isPrefixCs ['/'] rel then
            sch ++ ':' :: '/' :: '/' :: (netloc ++ rel)
          else
            sch ++ ':' :: '/' :: '/' :: (netloc ++ dirPart bpath ++ rel)

/-- `urljoin` on `String`, as called by the extractors. -/
def urljoin (base rel : String) : String := ⟨urljoinCs base.data rel.data⟩

/-- Separator class of the date regex used by the list-based extractors:
a dash or a slash. -/
def isSep2 (c : Char) : Bool := c == '-' || c == '/'

/-- Separator class of the date regex used by the sjtu extractor: a dash,
a slash or a dot. -/
def isSep3 (c : Char) : Bool := c == '-' || c == '/' || c == '.'

/-- Match `\d{1,2}` greedily at the head of the list: two digits when
available, else one. Returns the matched digits and the remainder. -/
def matchDay : List Char → Option (List Char × List Char)
  | [] => none
  | [a] => if a.isDigit then some ([a], []) else none
  | a :: b :: rest =>
    if a.isDigit && b.isDigit then some ([a, b], rest)
    else if a.isDigit then some ([a], b :: rest)
    else none

/-- Match a separator followed by `\d{1,2}`. -/
def matchSepDay (sep : Char → Bool) : List Char → Option (List Char × List Char)
  | [] => none
  | s :: rest =>
    if sep s then
      match matchDay rest with
      | some (t, r) => some (s :: t, r)
      | none => none
    else none

/-- Match `\d{1,2} SEP \d{1,2}` with the regex engine's greedy
backtracking: a two-digit month is preferred, falling back to one digit
when no separator follows. -/
def matchMD (sep : Char → Bool) : List Char → Option (List Char × List Char)
  | [] => none
  | [_] => none
  | a :: b :: rest =>
    if a.isDigit then
      if b.isDigit then
        match matchSepDay sep rest with
        | some (t, r) => some (a :: b :: t, r)
        | none =>
          match matchSepDay sep (b :: rest) with
          | some (t, r) => some (a :: t, r)
          | none => none
      else
        match matchSepDay sep (b :: rest) with
        | some (t, r) => some (a :: t, r)
        | none => none
    else none

/-- Match the date pattern `\d{4} SEP \d{1,2} SEP \d{1,2}` at the head of
the list; returns the matched token and the remainder after it. -/
def matchDateAt (sep : Char → Bool) : List Char → Option (List Char × List Char)
  | d1 :: d2 :: d3 :: d4 :: s1 :: rest =>
    if d1.isDigit && d2.isDigit && d3.isDigit && d4.isDigit && sep s1 then
      match matchMD sep rest with
      | some (t, r) => some (d1 :: d2 :: d3 :: d4 :: s1 :: t, r)
      | none => none
    else none
  | _ => none

/-- Model of `re.search` for the date pattern: the leftmost match's
token, if any. -/
def searchDateCs (sep : Char → Bool) : List Char → Option (List Char)
  | [] => none
  | c :: cs =>
    match matchDateAt sep (c :: cs) with
    | some (t, _) => some t
    | none => searchDateCs sep cs

/-- Model of the `re.sub` call that strips a leading date token and the
whitespace after it: when the date pattern matches at the start, drop it
together with the following whitespace; otherwise leave the text
unchanged. -/
def subLeadingDate (sep : Char → Bool) (cs : List Char) : List Char :=
  match matchDateAt sep cs with
  | some (_, rest) => rest.dropWhile isWsChar
  | none => cs

/-- A news record as built by the extractors: the dict
`{"source": …, "title": …, "date": …, "url": …}`. -/
structure NewsRecord where
  source : String
  title : String
  date : String
  url : String
deriving DecidableEq

/-- The fixed navigation denylist `nav_keywords` of `is_valid_news`. -/
def nav_keywords : List String :=
  ["首页", "更多", "详情", "查看", "点击", "下载", "登录", "注册",
   "部门概况", "统战团体", "民主党派", "参政议政", "理论园地", "服务指南",
   "复旦统战", "两会专题", "交大首页", "智慧统战", "中国人大网", "中国政协网",
   "中央统战部", "上海统一战线", "民革", "民盟", "民建", "民进", "农工党",
   "致公党", "九三学社", "台盟", "侨联", "欧美同学会", "知联会", "台联", "民族联"]

/-- Embedding of `is_valid_news(title, url, date_text)`. -/
def is_valid_news (title url date_text : String) : Bool :=
  if title.length < 6 then false
  else if nav_keywords.contains title then false
  else if nav_keywords.any (fun kw =>
      title == kw || (decide (title.length < 10) && inStr kw title)) then false
  else if inStr "list.htm" url && !inStr "/c" url then false
  else if date_text == "" then false
  else true

/-- The first anchor element of a candidate list item: its stripped text
(from `get_text(strip=True)`) and its `href` attribute, absent when the
attribute is not set. -/
structure AnchorData where
  text : String
  href : Option String
deriving DecidableEq

/-- A candidate list item as the four list-based extractors read it from
the DOM: the first anchor (if any), the stripped text of the first span
whose class matches the date/time pattern (if such a span exists), and
the item's full text. -/
structure ListItem where
  anchor : Option AnchorData
  spanDate : Option String
  itemText : String
deriving DecidableEq

/-- Per-item body of the loops of `parse_fudan`, `parse_tongji`,
`parse_ecnu` and `parse_shnu`, which are identical up to the `source`
constant: skip items without an anchor or with a missing or empty
`href`; resolve the link against the base URL; take the date from the
matching span when present, otherwise regex-extract it from the item
text normalising slashes to dashes; emit the record when
`is_valid_news` accepts it. -/
def parse_listsite_item (source base : String) (item : ListItem) : Option NewsRecord :=
  match item.anchor with
  | none => none
  | some link =>
    match link.href with
    | none => none
    | some h =>
      if h = "" then none
      else
        let url := urljoin base h
        let date_text : String :=
          match item.spanDate with
          | some s => s
          | none =>
            match searchDateCs isSep2 item.itemText.data with
            | some t => ⟨replaceChar '/' '-' t⟩
            | none => ""
        if is_valid_news link.text url date_text then
          some ⟨source, link.text, date_text, url⟩
        else none

/-- `parse_fudan` over its candidate items (DOM selection abstracted as
the input list). -/
def parse_fudan (items : List ListItem) (base : String) : List NewsRecord :=
  items.filterMap (parse_listsite_item "复旦大学" base)

/-- `parse_tongji` over its candidate items. -/
def parse_tongji (items : List ListItem) (base : String) : List NewsRecord :=
  items.filterMap (parse_listsite_item "同济大学" base)

/-- `parse_ecnu` over its candidate items. -/
def parse_ecnu (items : List ListItem) (base : String) : List NewsRecord :=
  items.filterMap (parse_listsite_item "华东师范大学" base)

/-- `parse_shnu` over its candidate items. -/
def parse_shnu (items : List ListItem) (base : String) : List NewsRecord :=
  items.filterMap (parse_listsite_item "上海师范大学" base)

/-- An anchor as the sjtu extractor reads it: its stripped text, its
`href` (the `find_all` predicate already guarantees a truthy href
containing "/post/"), and the text of its immediate parent element when
one exists. -/
structure SjtuAnchor where
  text : String
  href : String
  parentText : Option String
deriving DecidableEq

/-- Normalisation applied by `parse_sjtu` to an extracted date token:
dots then slashes are replaced by dashes. -/
def normSep3 (t : List Char) : String :=
  ⟨replaceChar '/' '-' (replaceChar '.' '-' t)⟩

/-- Per-anchor body of the loop of `parse_sjtu`: search the anchor text
for a date token; on a hit, normalise its separators, strip a leading
date token (with trailing whitespace) from the title; otherwise scan the
immediate parent's text for a date. Emit when the cleaned title is
non-empty of length at least 6 and a date was found. -/
def parse_sjtu_item (base : String) (a : SjtuAnchor) : Option NewsRecord :=
  let url := urljoin base a.href
  match searchDateCs isSep3 a.text.data with
  | some t =>
    let date_text := normSep3 t
    let title := pyStrip ⟨subLeadingDate isSep3 a.text.data⟩
    if title ≠ "" ∧ 6 ≤ title.length ∧ date_text ≠ "" then
      some ⟨"上海交通大学", title, date_text, url⟩
    else none
  | none =>
    let date_text : String :=
      match a.parentText with
      | some p =>
        match searchDateCs isSep3 p.data with
        | some t => normSep3 t
        | none => ""
      | none => ""
    let title := pyStrip a.text
    if title ≠ "" ∧ 6 ≤ title.length ∧ date_text ≠ "" then
      some ⟨"上海交通大学", title, date_text, url⟩
    else none

/-- `parse_sjtu` over its selected anchors. -/
def parse_sjtu (anchors : List SjtuAnchor) (base : String) : List NewsRecord :=
  anchors.filterMap (parse_sjtu_item base)

/-- One element of the `gzdtList` feed array read by `parse_shsy`; a
missing key is modelled by the empty string, matching
`item.get(key, "")`. -/
structure FeedEntry where
  messagetitle : String
  messagedate : String
  messageurl : String
deriving DecidableEq

/-- The shsy site root against which feed URLs are resolved. -/
def shsyRoot : String := "https://www.shsy.org.cn/"

/-- Per-entry body of the loop of `parse_shsy`: strip the three fields;
pass a messageurl beginning with "http" through unchanged, prepend the
site root to one beginning with "detailpage/", resolve any other
non-empty messageurl with `urljoin`, and skip empty ones; emit when the
title is non-empty of length at least 2 and the date is non-empty. -/
def parse_shsy_entry (e : FeedEntry) : Option NewsRecord :=
  let title := pyStrip e.messagetitle
  let date_text := pyStrip e.messagedate
  let msg_url := pyStrip e.messageurl
  let url? : Option String :=
    if isPrefixCs "http".data msg_url.data then some msg_url
    else if isPrefixCs "detailpage/".data msg_url.data then some (shsyRoot ++ msg_url)
    else if msg_url ≠ "" then some (urljoin shsyRoot msg_url)
    else none
  match url? with
  | none => none
  | some url =>
    if title ≠ "" ∧ 2 ≤ title.length ∧ date_text ≠ "" then
      some ⟨"上海市社会主义学院", title, date_text, url⟩
    else none

/-- `parse_shsy` over the entries of the feed array it fetches and
decodes (the secondary fetch and the JSON decoding are abstracted as the
input list; a fetch or decode failure corresponds to the empty list). -/
def parse_shsy (entries : List FeedEntry) : List NewsRecord :=
  entries.filterMap parse_shsy_entry

/-- One entry of the `UNIVERSITIES` configuration table: listing URL,
base URL and parser key. -/
structure SiteConfig where
  url : String
  base_url : String
  parserKey : String
deriving DecidableEq

/-- The `UNIVERSITIES` table, in the source's (dict-insertion) order. -/
def UNIVERSITIES : List (String × SiteConfig) :=
  [("复旦大学", ⟨"https://www.tzb.fudan.edu.cn/20423/list.htm", "https://www.tzb.fudan.edu.cn", "fudan"⟩),
   ("上海交通大学", ⟨"https://tzb.sjtu.edu.cn/news", "https://tzb.sjtu.edu.cn", "sjtu"⟩),
   ("同济大学", ⟨"https://tzb.tongji.edu.cn/syxw/list.htm", "https://tzb.tongji.edu.cn", "tongji"⟩),
   ("华东师范大学", ⟨"https://tzb.ecnu.edu.cn/tzxw/list.htm", "https://tzb.ecnu.edu.cn", "ecnu"⟩),
   ("上海师范大学", ⟨"https://tzb.shnu.edu.cn/zhyw/list.htm", "https://tzb.shnu.edu.cn", "shnu"⟩),
   ("上海市社会主义学院", ⟨"https://www.shsy.org.cn/node933/shsy/tzll/gzdt/index.html", "https://www.shsy.org.cn", "shsy"⟩)]

/-- The keys of the `PARSERS` dictionary. -/
def parserKeys : List String := ["fudan", "sjtu", "tongji", "ecnu", "shnu", "shsy"]

/-- The `PARSERS` dictionary: defined for exactly the six parser keys.
The value attached to a key is taken from an abstract implementation
`impl` (the real values parse raw HTML through BeautifulSoup, which the
item-level embeddings above model separately); the aggregator's control
flow depends only on which keys are present. -/
def PARSERS (impl : String → String → String → List NewsRecord)
    (key : String) : Option (String → String → List NewsRecord) :=
  if parserKeys.contains key then some (impl key) else none

/-- Embedding of `scrape_university(name, config)`, parameterised by the
fetch oracle (modelling `fetch_page`, `none` = fetch failed) and the
parser table: a failed fetch or a missing parser yields an error string
and no records; otherwise the parser's records and no error. -/
def scrape_university (fetch : String → Option String)
    (parsers : String → Option (String → String → List NewsRecord))
    (name : String) (config : SiteConfig) :
    String × List NewsRecord × Option String :=
  match fetch config.url with
  | none => (name, [], some (name ++ "网站访问超时或失败"))
  | some html =>
    match parsers config.parserKey with
    | none => (name, [], some (name ++ "解析器未找到"))
    | some p => (name, p html config.base_url, none)

/-- The sort key `parse_date` of `scrape_all_universities`: a non-empty
date with slashes replaced by dashes, the sentinel for an empty date. -/
def parse_date (r : NewsRecord) : String :=
  if r.date = "" then "0000-00-00" else strReplaceChar '/' '-' r.date

/-- The descending-by-key comparison used to model Python's stable
`sort(key=parse_date, reverse=True)`: record `a` may precede record `b`
iff `b`'s key is at most `a`'s. -/
def newsGe (a b : NewsRecord) : Prop :=
  lexLe (parse_date b).data (parse_date a).data = true

instance : DecidableRel newsGe := fun _ _ => instDecidableEqBool _ _

/-- Embedding of the collection and sorting phase of
`scrape_all_universities`, taking the per-site results in their arrival
(`as_completed`) order: news lists are concatenated and errors collected
in that order, then the news is sorted by date key descending with a
stable sort (Python's `list.sort` is stable; a stable descending sort is
insertion sort under the non-strict descending comparison). -/
def scrape_all_universities
    (results : List (String × List NewsRecord × Option String)) :
    List NewsRecord × List String :=
  (List.insertionSort newsGe (results.map (fun t => t.2.1)).flatten,
   results.filterMap (fun t => t.2.2))

/-- Outcome of the HTTP layer underneath `fetch_page`: a response with a
status code and body bytes, or a raised network/timeout exception. -/
inductive NetResult where
  | ok (status : Nat) (body : List Nat)
  | exn
deriving DecidableEq

/-- Embedding of `fetch_page(url)` over an abstract HTTP outcome for the
requested URL: any exception path (network error or timeout, an HTTP
status in the 400–599 range raised by `raise_for_status`, or a decode
failure) returns `none`; on success the body is decoded with the
encoding guessed from the bytes themselves (`apparent` models
`response.apparent_encoding`, `decodeAs` the decoding of the body with a
named encoding). The Lean function is total: no exception escapes. -/
def fetch_page (net : NetResult) (apparent : List Nat → String)
    (decodeAs : String → List Nat → Option String) : Option String :=
  match net with
  | .exn => none
  | .ok status body =>
    if 400 ≤ status ∧ status ≤ 599 then none
    else
      match decodeAs (apparent body) body with
      | none => none
      | some text => some text

/-- Re-scanning a scheme that `splitSchemeAux` has recognised, followed
by a colon and anything, recognises the same scheme. -/
theorem splitSchemeAux_again {cs s r : List Char}
    (h : splitSchemeAux cs = some (s, r)) (t : List Char) :
    splitSchemeAux (s ++ ':' :: t) = some (s, t) := by
  induction cs generalizing s r with
  | nil => simp [splitSchemeAux] at h
  | cons c cs ih =>
    simp only [splitSchemeAux] at h
    split at h
    · rename_i hc
      obtain ⟨hs, hr⟩ := Prod.mk.injEq .. ▸ Option.some.injEq .. ▸ h
      subst hs
      simp [splitSchemeAux]
    · split at h
      · rename_i hc hsc
        rw [Option.map_eq_some'] at h
        obtain ⟨⟨s', r'⟩, haux, heq⟩ := h
        obtain ⟨hs, hr⟩ := Prod.mk.injEq .. ▸ heq
        subst hs hr
        simpa [splitSchemeAux, hc, hsc] using ih haux
      · exact absurd h (by simp)

/-- Re-scanning a scheme that `splitSchemeCs` has recognised, followed by
a colon and anything, recognises the same scheme. -/
theorem splitSchemeCs_again {cs s r : List Char}
    (h : splitSchemeCs cs = some (s, r)) (t : List Char) :
    splitSchemeCs (s ++ ':' :: t) = some (s, t) := by
  cases cs with
  | nil => simp [splitSchemeCs] at h
  | cons c cs =>
    simp only [splitSchemeCs] at h
    split at h
    · rename_i hc
      rw [Option.map_eq_some'] at h
      obtain ⟨⟨s', r'⟩, haux, heq⟩ := h
      obtain ⟨hs, hr⟩ := Prod.mk.injEq .. ▸ heq
      subst hs hr
      simpa [splitSchemeCs, hc] using splitSchemeAux_again haux t
    · exact absurd h (by simp)

/-- Inversion for `splitSchemeAux`: a successful scan decomposes the
input as the scheme, the colon and the remainder. -/
theorem splitSchemeAux_eq {cs s r : List Char}
    (h : splitSchemeAux cs = some (s, r)) : cs = s ++ ':' :: r := by
  induction cs generalizing s r with
  | nil => simp [splitSchemeAux] at h
  | cons c cs ih =>
    simp only [splitSchemeAux] at h
    split at h
    · rename_i hc
      obtain ⟨hs, hr⟩ := Prod.mk.injEq .. ▸ Option.some.injEq .. ▸ h
      subst hs hr hc
      rfl
    · split at h
      · rw [Option.map_eq_some'] at h
        obtain ⟨⟨s2, r2⟩, haux, heq⟩ := h
        obtain ⟨hs, hr⟩ := Prod.mk.injEq .. ▸ heq
        subst hs hr
        rw [ih haux]
        rfl
      · exact absurd h (by simp)

/-- Inversion for `splitSchemeCs`. -/
theorem splitSchemeCs_eq {cs s r : List Char}
    (h : splitSchemeCs cs = some (s, r)) : cs = s ++ ':' :: r := by
  cases cs with
  | nil => simp [splitSchemeCs] at h
  | cons c cs =>
    simp only [splitSchemeCs] at h
    split at h
    · rw [Option.map_eq_some'] at h
      obtain ⟨⟨s2, r2⟩, haux, heq⟩ := h
      obtain ⟨hs, hr⟩ := Prod.mk.injEq .. ▸ heq
      subst hs hr
      rw [splitSchemeAux_eq haux]
      rfl
    · exact absurd h (by simp)

/-- A string with a scheme stays absolute when extended on the right. -/
theorem isAbsoluteUrl_append {s : String} (t : String)
    (h : isAbsoluteUrl s = true) : isAbsoluteUrl (s ++ t) = true := by
  unfold isAbsoluteUrl at h ⊢
  rw [Option.isSome_iff_exists] at h
  obtain ⟨⟨sch, rest⟩, hsch⟩ := h
  rw [String.data_append, splitSchemeCs_eq hsch, List.append_assoc, List.cons_append,
    splitSchemeCs_again hsch (rest ++ t.data)]
  rfl

/-- `urljoin` with an absolute base always produces an absolute URL. -/
theorem urljoin_absolute (base rel : String) (h : isAbsoluteUrl base = true) :
    isAbsoluteUrl (urljoin base rel) = true := by
  obtain ⟨⟨sch, rest⟩, hbs⟩ := Option.isSome_iff_exists.mp h
  show (splitSchemeCs (urljoinCs base.data rel.data)).isSome = true
  unfold urljoinCs
  split
  · exact h
  · split
    · rename_i p hp
      simp [hp]
    · rename_i hrelnone
      simp only [hbs]
      split
      · rw [splitSchemeCs_again hbs]; rfl
      · split
        · rw [splitSchemeCs_again hbs]; rfl
        · rw [splitSchemeCs_again hbs]; rfl

/-- A record accepted by `is_valid_news` has a title of length at least 6
and a non-empty date. -/
theorem is_valid_news_title_date {t u d : String}
    (h : is_valid_news t u d = true) : 6 ≤ t.length ∧ d ≠ "" := by
  unfold is_valid_news at h
  split at h
  · exact absurd h (by simp)
  · rename_i h6
    split at h
    · exact absurd h (by simp)
    · split at h
      · exact absurd h (by simp)
      · split at h
        · exact absurd h (by simp)
        · split at h
          · exact absurd h (by simp)
          · rename_i hd
            refine ⟨Nat.le_of_not_lt h6, ?_⟩
            simpa using hd

/-- C3: `is_valid_news` returns False exactly when the title is shorter
than 6 characters, or the title equals a denylist entry, or the title is
shorter than 10 characters and contains a denylist entry as a substring,
or the url contains "list.htm" without containing "/c", or the date text
is empty; otherwise it returns True. -/
theorem C3_is_valid_news_characterisation (t u d : String) :
    is_valid_news t u d = false ↔
      t.length < 6
      ∨ t ∈ nav_keywords
      ∨ (t.length < 10 ∧ ∃ kw ∈ nav_keywords, inStr kw t = true)
      ∨ (inStr "list.htm" u = true ∧ inStr "/c" u = false)
      ∨ d = "" := by
  constructor
  · intro hf
    unfold is_valid_news at hf
    split at hf
    · rename_i h; exact Or.inl h
    · split at hf
      · rename_i h
        exact Or.inr (Or.inl (by simpa [List.contains_iff_exists_mem_beq] using h))
      · rename_i hcon hany
        split at hf
        · rename_i h
          rw [List.any_eq_true] at h
          obtain ⟨kw, hkw, hor⟩ := h
          rw [Bool.or_eq_true] at hor
          rcases hor with heq | hand
          · exact absurd (List.contains_iff_exists_mem_beq.mpr ⟨kw, hkw, heq⟩)
              (by simpa using hany)
          · rw [Bool.and_eq_true, decide_eq_true_iff] at hand
            exact Or.inr (Or.inr (Or.inl ⟨hand.1, kw, hkw, hand.2⟩))
        · rename_i hurl
          split at hf
          · rename_i h
            rw [Bool.and_eq_true, Bool.not_eq_true'] at h
            exact Or.inr (Or.inr (Or.inr (Or.inl h)))
          · split at hf
            · rename_i h
              exact Or.inr (Or.inr (Or.inr (Or.inr (by simpa using h))))
            · exact absurd hf (by simp)
  · intro hr
    unfold is_valid_news
    rcases hr with h | h | ⟨h10, kw, hkw, hin⟩ | ⟨h1, h2⟩ | h
    · simp [h]
    · have hc : nav_keywords.contains t = true :=
        List.contains_iff_exists_mem_beq.mpr ⟨t, h, by simp⟩
      split
      · rfl
      · simp [hc]
    · have ha : nav_keywords.any
          (fun kw => t == kw || (decide (t.length < 10) && inStr kw t)) = true :=
        List.any_eq_true.mpr ⟨kw, hkw, by simp [h10, hin]⟩
      split
      · rfl
      · split
        · rfl
        · simp [ha]
    · split
      · rfl
      · split
        · rfl
        · split
          · rfl
          · simp [h1, h2]
    · subst h
      split
      · rfl
      · split
        · rfl
        · split
          · rfl
          · split
            · rfl
            · simp

/-- Totality of the code-point lexicographic comparison. -/
theorem lexLe_total : ∀ a b : List Char, lexLe a b = true ∨ lexLe b a = true
  | [], _ => Or.inl rfl
  | _ :: _, [] => Or.inr rfl
  | a :: as, b :: bs => by
    by_cases hab : a = b
    · subst hab
      simpa [lexLe] using lexLe_total as bs
    · rcases lt_trichotomy a b with h | h | h
      · exact Or.inl (by simp [lexLe, hab, h])
      · exact absurd h hab
      · exact Or.inr (by simp [lexLe, Ne.symm hab, h])

/-- Transitivity of the code-point lexicographic comparison. -/
theorem lexLe_trans : ∀ a b c : List Char,
    lexLe a b = true → lexLe b c = true → lexLe a c = true
  | [], _, _ => fun _ _ => rfl
  | _ :: _, [], _ => fun h _ => by simp [lexLe] at h
  | _ :: _, _ :: _, [] => fun _ h => by simp [lexLe] at h
  | a :: as, b :: bs, c :: cs => by
    intro h1 h2
    by_cases hab : a = b <;> by_cases hbc : b = c
    · subst hab hbc
      simp only [lexLe, if_pos rfl] at h1 h2 ⊢
      exact lexLe_trans as bs cs h1 h2
    · subst hab
      simpa [lexLe, hbc] using h2
    · subst hbc
      simpa [lexLe, hab] using h1
    · rw [lexLe, if_neg hab] at h1
      rw [lexLe, if_neg hbc] at h2
      have hac : a < c := lt_trans (of_decide_eq_true h1) (of_decide_eq_true h2)
      rw [lexLe, if_neg (ne_of_lt hac)]
      exact decide_eq_true hac

instance : IsTotal NewsRecord newsGe :=
  ⟨fun a b => by
    unfold newsGe
    exact lexLe_total (parse_date b).data (parse_date a).data⟩

instance : IsTrans NewsRecord newsGe :=
  ⟨fun _ _ _ h1 h2 => by
    unfold newsGe at h1 h2 ⊢
    exact lexLe_trans _ _ _ h2 h1⟩

/-- C2 (amended): the aggregator's output is sorted descending by the
sort key, which is the date with slashes replaced by dashes for a
non-empty date and the sentinel "0000-00-00" for an empty one. -/
theorem C2_sorted_by_key_descending
    (results : List (String × List NewsRecord × Option String)) :
    ((scrape_all_universities results).1).Pairwise newsGe :=
  List.sorted_insertionSort newsGe _

/-- C2 counterexample: in the sorted output a record with date
"2024-06-01" precedes one with date "2024/05/01" (their keys order that
way), yet the date fields themselves compare the other way around, so
the claimed descending order of the raw date fields fails; the
"2024/05/01" record's nonempty malformed-looking date is also not keyed
by the sentinel, or it would have sorted below a zero key. -/
theorem C2_counterexample :
    ¬ ((scrape_all_universities
        [("复旦大学",
          [⟨"复旦大学", "标题甲", "2024/05/01", "https://a"⟩,
           ⟨"复旦大学", "标题乙", "2024-06-01", "https://b"⟩], none)]).1.Pairwise
        (fun a b => lexLe b.date.data a.date.data = true)) := by decide

/-- C10: aggregation and sorting only permute the extractors' records;
every field of every record reaches the output unchanged, and the error
list is exactly the errors in arrival order. -/
theorem C10_output_is_permutation
    (results : List (String × List NewsRecord × Option String)) :
    ((scrape_all_universities results).1).Perm
        ((results.map (fun t => t.2.1)).flatten)
      ∧ (scrape_all_universities results).2
          = results.filterMap (fun t => t.2.2) :=
  ⟨List.perm_insertionSort newsGe _, rfl⟩

/-- C9 (amended): the aggregator is a pure function of the per-site
results in their arrival order, so identical content collected in the
same order gives identical output; when the completion order differs,
the outputs still agree as multisets (records and errors), though not
necessarily in the same order. -/
theorem C9_amended_determinism_up_to_arrival_order
    (res1 res2 : List (String × List NewsRecord × Option String))
    (h : res1.Perm res2) :
    ((scrape_all_universities res1).1).Perm ((scrape_all_universities res2).1)
    ∧ ((scrape_all_universities res1).2).Perm ((scrape_all_universities res2).2)
    ∧ (res1 = res2 → scrape_all_universities res1 = scrape_all_universities res2) := by
  refine ⟨?_, ?_, fun he => by rw [he]⟩
  · exact (List.perm_insertionSort newsGe _).trans
      (((h.map _).flatten).trans (List.perm_insertionSort newsGe _).symm)
  · exact h.filterMap _

/-- Witness for C9 (amended) at a concrete pair of arrival orders. -/
theorem C9_amended_witness :
    (((scrape_all_universities
        [("A", [⟨"A", "标题甲", "2024-01-01", "https://a"⟩], none),
         ("B", [⟨"B", "标题乙", "2024-01-01", "https://b"⟩], none)]).1).Perm
      ((scrape_all_universities
        [("B", [⟨"B", "标题乙", "2024-01-01", "https://b"⟩], none),
         ("A", [⟨"A", "标题甲", "2024-01-01", "https://a"⟩], none)]).1)) :=
  (C9_amended_determinism_up_to_arrival_order _ _ (by decide)).1

/-- C9 counterexample: two runs over identical per-site content whose
results merely arrive in a different order produce different outputs —
the two records share the same date key, and the stable sort keeps them
in arrival order, so the member order differs between the runs. -/
theorem C9_counterexample :
    ([("B", [(⟨"B", "标题乙", "2024-01-01", "https://b"⟩ : NewsRecord)], (none : Option String)),
      ("A", [⟨"A", "标题甲", "2024-01-01", "https://a"⟩], none)].Perm
     [("A", [(⟨"A", "标题甲", "2024-01-01", "https://a"⟩ : NewsRecord)], (none : Option String)),
      ("B", [⟨"B", "标题乙", "2024-01-01", "https://b"⟩], none)])
    ∧ scrape_all_universities
        [("A", [⟨"A", "标题甲", "2024-01-01", "https://a"⟩], none),
         ("B", [⟨"B", "标题乙", "2024-01-01", "https://b"⟩], none)]
      ≠ scrape_all_universities
        [("B", [⟨"B", "标题乙", "2024-01-01", "https://b"⟩], none),
         ("A", [⟨"A", "标题甲", "2024-01-01", "https://a"⟩], none)] := by
  constructor
  · exact List.Perm.swap _ _ _
  · decide

/-- C5 (amended): `fetch_page` is total — it never raises; it returns
`none` on a network/timeout exception, on an HTTP status in the 400–599
range (exactly what `raise_for_status` raises for) and on a decode
failure, and on any other status — which includes terminal non-2xx
statuses such as 304 — it returns the body decoded with the
content-inferred (`apparent_encoding`) charset. -/
theorem C5_fetch_page_behaviour (apparent : List Nat → String)
    (decodeAs : String → List Nat → Option String) :
    fetch_page .exn apparent decodeAs = none
    ∧ (∀ status body, 400 ≤ status → status ≤ 599 →
        fetch_page (.ok status body) apparent decodeAs = none)
    ∧ (∀ status body, ¬ (400 ≤ status ∧ status ≤ 599) →
        fetch_page (.ok status body) apparent decodeAs
          = decodeAs (apparent body) body) := by
  refine ⟨rfl, ?_, ?_⟩
  · intro status body h1 h2
    simp only [fetch_page]
    rw [if_pos ⟨h1, h2⟩]
  · intro status body h
    simp only [fetch_page]
    rw [if_neg h]
    cases hd : decodeAs (apparent body) body with
    | none => rfl
    | some t => rfl

/-- C5 counterexample: status 304 is not a success (2xx) status, yet
`raise_for_status` does not raise for it, so `fetch_page` returns the
decoded body rather than the claimed absence signal. -/
theorem C5_counterexample :
    (304 < 200 ∨ 300 ≤ 304)
    ∧ fetch_page (.ok 304 [60]) (fun _ => "utf-8") (fun _ _ => some "页面")
        = some "页面" := by decide

/-- Witness for C5 (amended) at concrete statuses, bodies and decoders. -/
theorem C5_witness :
    fetch_page (.ok 404 [60]) (fun _ => "utf-8") (fun _ _ => some "x") = none
    ∧ fetch_page (.ok 200 [60]) (fun _ => "utf-8") (fun _ _ => none) = none
    ∧ fetch_page (.ok 200 [60]) (fun _ => "utf-8") (fun _ _ => some "页面") = some "页面" := by
  refine ⟨?_, ?_, ?_⟩
  · exact (C5_fetch_page_behaviour _ _).2.1 404 [60] (by decide) (by decide)
  · exact ((C5_fetch_page_behaviour _ _).2.2 200 [60] (by decide)).trans rfl
  · exact ((C5_fetch_page_behaviour (fun _ => "utf-8") (fun _ _ => some "页面")).2.2
      200 [60] (by decide)).trans rfl

/-- C1 (amended): every record emitted by the extractors has a title of
at least the site's minimum length (6 for the five HTML-parsed sites, 2
for shsy) and a non-empty date; the url is absolute for the five
HTML-parsed sites whenever the base URL is absolute (as all configured
bases are), while for shsy the url is absolute except that a messageurl
beginning with "http" is passed through verbatim and is then only as
absolute as the feed value itself. -/
theorem C1_amended_record_invariants :
    (∀ source base item r, isAbsoluteUrl base = true →
        parse_listsite_item source base item = some r →
        6 ≤ r.title.length ∧ r.date ≠ "" ∧ isAbsoluteUrl r.url = true)
    ∧ (∀ base a r, isAbsoluteUrl base = true →
        parse_sjtu_item base a = some r →
        6 ≤ r.title.length ∧ r.date ≠ "" ∧ isAbsoluteUrl r.url = true)
    ∧ (∀ e r, parse_shsy_entry e = some r →
        2 ≤ r.title.length ∧ r.date ≠ ""
        ∧ (isAbsoluteUrl r.url = true
            ∨ (isPrefixCs "http".data (pyStrip e.messageurl).data = true
                ∧ r.url = pyStrip e.messageurl))) := by
  refine ⟨?_, ?_, ?_⟩
  · intro source base item r hbase hp
    simp only [parse_listsite_item] at hp
    split at hp
    · exact absurd hp (by simp)
    · split at hp
      · exact absurd hp (by simp)
      · split at hp
        · exact absurd hp (by simp)
        · split at hp
          · rename_i hvalid
            rw [Option.some.injEq] at hp
            subst hp
            obtain ⟨h6, hd⟩ := is_valid_news_title_date hvalid
            exact ⟨h6, hd, urljoin_absolute base _ hbase⟩
          · exact absurd hp (by simp)
  · intro base a r hbase hp
    simp only [parse_sjtu_item] at hp
    split at hp <;>
    · split at hp
      · rename_i hguard
        rw [Option.some.injEq] at hp
        subst hp
        exact ⟨hguard.2.1, hguard.2.2, urljoin_absolute base _ hbase⟩
      · exact absurd hp (by simp)
  · intro e r hp
    simp only [parse_shsy_entry] at hp
    split at hp
    · exact absurd hp (by simp)
    · rename_i url hurl
      split at hp
      · rename_i hguard
        rw [Option.some.injEq] at hp
        subst hp
        refine ⟨hguard.2.1, hguard.2.2, ?_⟩
        split at hurl
        · rename_i hhttp
          rw [Option.some.injEq] at hurl
          exact Or.inr ⟨hhttp, hurl.symm⟩
        · split at hurl
          · rw [Option.some.injEq] at hurl
            subst hurl
            exact Or.inl (isAbsoluteUrl_append _ (by decide))
          · split at hurl
            · rw [Option.some.injEq] at hurl
              subst hurl
              exact Or.inl (urljoin_absolute shsyRoot _ (by decide))
            · exact absurd hurl (by simp)
      · exact absurd hp (by simp)

/-- C1 counterexample: a shsy feed entry whose messageurl is "httpx" is
emitted with url "httpx", which is not an absolute URL. -/
theorem C1_counterexample :
    parse_shsy_entry ⟨"公告", "2024-01-01", "httpx"⟩
      = some ⟨"上海市社会主义学院", "公告", "2024-01-01", "httpx"⟩
    ∧ isAbsoluteUrl "httpx" = false := by decide

/-- Witness for C1 (amended) at one concrete item per extractor shape. -/
theorem C1_witness :
    (6 ≤ ((⟨"复旦大学", "新闻标题有六个字", "2024-03-05",
          "https://www.tzb.fudan.edu.cn/2024/0305/c1a1/page.htm"⟩ : NewsRecord)).title.length
      ∧ ((⟨"复旦大学", "新闻标题有六个字", "2024-03-05",
          "https://www.tzb.fudan.edu.cn/2024/0305/c1a1/page.htm"⟩ : NewsRecord)).date ≠ ""
      ∧ isAbsoluteUrl ((⟨"复旦大学", "新闻标题有六个字", "2024-03-05",
          "https://www.tzb.fudan.edu.cn/2024/0305/c1a1/page.htm"⟩ : NewsRecord)).url = true)
    ∧ (6 ≤ ((⟨"上海交通大学", "新闻标题六个字", "2024-03-05",
          "https://tzb.sjtu.edu.cn/post/1"⟩ : NewsRecord)).title.length
      ∧ ((⟨"上海交通大学", "新闻标题六个字", "2024-03-05",
          "https://tzb.sjtu.edu.cn/post/1"⟩ : NewsRecord)).date ≠ ""
      ∧ isAbsoluteUrl ((⟨"上海交通大学", "新闻标题六个字", "2024-03-05",
          "https://tzb.sjtu.edu.cn/post/1"⟩ : NewsRecord)).url = true)
    ∧ (2 ≤ ((⟨"上海市社会主义学院", "公告", "2024-01-01",
          "https://www.shsy.org.cn/detailpage/1.html"⟩ : NewsRecord)).title.length
      ∧ ((⟨"上海市社会主义学院", "公告", "2024-01-01",
          "https://www.shsy.org.cn/detailpage/1.html"⟩ : NewsRecord)).date ≠ ""
      ∧ (isAbsoluteUrl ((⟨"上海市社会主义学院", "公告", "2024-01-01",
            "https://www.shsy.org.cn/detailpage/1.html"⟩ : NewsRecord)).url = true
          ∨ (isPrefixCs "http".data
              (pyStrip (FeedEntry.messageurl ⟨"公告", "2024-01-01", "detailpage/1.html"⟩)).data = true
            ∧ ((⟨"上海市社会主义学院", "公告", "2024-01-01",
                "https://www.shsy.org.cn/detailpage/1.html"⟩ : NewsRecord)).url
              = pyStrip (FeedEntry.messageurl ⟨"公告", "2024-01-01", "detailpage/1.html"⟩)))) :=
  ⟨C1_amended_record_invariants.1 "复旦大学" "https://www.tzb.fudan.edu.cn"
      ⟨some ⟨"新闻标题有六个字", some "/2024/0305/c1a1/page.htm"⟩, some "2024-03-05", ""⟩ _
      (by decide) (by decide),
   C1_amended_record_invariants.2.1 "https://tzb.sjtu.edu.cn"
      ⟨"2024.03.05 新闻标题六个字", "/post/1", none⟩ _
      (by decide) (by decide),
   C1_amended_record_invariants.2.2 ⟨"公告", "2024-01-01", "detailpage/1.html"⟩ _
      (by decide)⟩

/-- C6 counterexample: the spec's fixture feed entry has the one-character
title "T", which fails the 2-character minimum, so the shsy extractor
yields no record at all for it — in particular not one with the claimed
url. -/
theorem C6_counterexample :
    parse_shsy_entry ⟨"T", "2024-01-01", "detailpage/1.html"⟩ = none := by decide

/-- C6 (amended): the shsy url normalisation is as claimed — "http"-led
messageurls pass through unchanged, "detailpage/"-led ones are joined
directly to the site root, and any other non-empty messageurl is
resolved with urljoin against the site root; the spec's fixture entry is
rejected for its 1-character title, but the same entry with a title of
the minimum length 2 yields the url
"https://www.shsy.org.cn/detailpage/1.html". -/
theorem C6_amended_url_normalisation :
    (∀ e r, parse_shsy_entry e = some r →
        isPrefixCs "http".data (pyStrip e.messageurl).data = true →
        r.url = pyStrip e.messageurl)
    ∧ (∀ e r, parse_shsy_entry e = some r →
        isPrefixCs "http".data (pyStrip e.messageurl).data = false →
        isPrefixCs "detailpage/".data (pyStrip e.messageurl).data = true →
        r.url = shsyRoot ++ pyStrip e.messageurl)
    ∧ (∀ e r, parse_shsy_entry e = some r →
        isPrefixCs "http".data (pyStrip e.messageurl).data = false →
        isPrefixCs "detailpage/".data (pyStrip e.messageurl).data = false →
        r.url = urljoin shsyRoot (pyStrip e.messageurl))
    ∧ parse_shsy_entry ⟨"TT", "2024-01-01", "detailpage/1.html"⟩
        = some ⟨"上海市社会主义学院", "TT", "2024-01-01",
            "https://www.shsy.org.cn/detailpage/1.html"⟩ := by
  have hmain : ∀ e r, parse_shsy_entry e = some r →
      (isPrefixCs "http".data (pyStrip e.messageurl).data = true
        ∧ r.url = pyStrip e.messageurl)
      ∨ (isPrefixCs "http".data (pyStrip e.messageurl).data = false
        ∧ isPrefixCs "detailpage/".data (pyStrip e.messageurl).data = true
        ∧ r.url = shsyRoot ++ pyStrip e.messageurl)
      ∨ (isPrefixCs "http".data (pyStrip e.messageurl).data = false
        ∧ isPrefixCs "detailpage/".data (pyStrip e.messageurl).data = false
        ∧ r.url = urljoin shsyRoot (pyStrip e.messageurl)) := by
    intro e r hp
    simp only [parse_shsy_entry] at hp
    split at hp
    · exact absurd hp (by simp)
    · rename_i url hurl
      split at hp
      · rw [Option.some.injEq] at hp
        subst hp
        split at hurl
        · rename_i hhttp
          rw [Option.some.injEq] at hurl
          exact Or.inl ⟨hhttp, hurl.symm⟩
        · rename_i hhttp
          split at hurl
          · rename_i hdet
            rw [Option.some.injEq] at hurl
            exact Or.inr (Or.inl ⟨Bool.not_eq_true _ ▸ hhttp, hdet, hurl.symm⟩)
          · rename_i hdet
            split at hurl
            · rw [Option.some.injEq] at hurl
              exact Or.inr (Or.inr ⟨Bool.not_eq_true _ ▸ hhttp,
                Bool.not_eq_true _ ▸ hdet, hurl.symm⟩)
            · exact absurd hurl (by simp)
      · exact absurd hp (by simp)
  refine ⟨?_, ?_, ?_, by decide⟩
  · intro e r hp hhttp
    rcases hmain e r hp with ⟨_, h⟩ | ⟨hf, _, _⟩ | ⟨hf, _, _⟩
    · exact h
    · rw [hhttp] at hf; cases hf
    · rw [hhttp] at hf; cases hf
  · intro e r hp hhttp hdet
    rcases hmain e r hp with ⟨hf, _⟩ | ⟨_, _, h⟩ | ⟨_, hf, _⟩
    · rw [hhttp] at hf; cases hf
    · exact h
    · rw [hdet] at hf; cases hf
  · intro e r hp hhttp hdet
    rcases hmain e r hp with ⟨hf, _⟩ | ⟨_, hf, _⟩ | ⟨_, _, h⟩
    · rw [hhttp] at hf; cases hf
    · rw [hdet] at hf; cases hf
    · exact h

/-- Witness for C6 (amended) at concrete feed entries hitting all three
normalisation branches. -/
theorem C6_witness :
    (NewsRecord.url ⟨"上海市社会主义学院", "公告", "2024-01-01",
        "https://x/y.html"⟩ : String)
      = pyStrip (FeedEntry.messageurl ⟨"公告", "2024-01-01", "https://x/y.html"⟩)
    ∧ (NewsRecord.url ⟨"上海市社会主义学院", "公告", "2024-01-01",
        "https://www.shsy.org.cn/detailpage/2.html"⟩ : String)
      = shsyRoot ++ pyStrip (FeedEntry.messageurl ⟨"公告", "2024-01-01", "detailpage/2.html"⟩)
    ∧ (NewsRecord.url ⟨"上海市社会主义学院", "公告", "2024-01-01",
        "https://www.shsy.org.cn/news/3.html"⟩ : String)
      = urljoin shsyRoot (pyStrip (FeedEntry.messageurl ⟨"公告", "2024-01-01", "news/3.html"⟩)) :=
  ⟨C6_amended_url_normalisation.1 ⟨"公告", "2024-01-01", "https://x/y.html"⟩ _
      (by decide) (by decide),
   C6_amended_url_normalisation.2.1 ⟨"公告", "2024-01-01", "detailpage/2.html"⟩ _
      (by decide) (by decide) (by decide),
   C6_amended_url_normalisation.2.2.1 ⟨"公告", "2024-01-01", "news/3.html"⟩ _
      (by decide) (by decide) (by decide)⟩

/-- A date match at position 0 is what the leftmost search finds. -/
theorem searchDateCs_of_matchAt {sep : Char → Bool} {cs tok rest : List Char}
    (h : matchDateAt sep cs = some (tok, rest)) :
    searchDateCs sep cs = some tok := by
  cases cs with
  | nil => simp [matchDateAt] at h
  | cons c cs => simp [searchDateCs, h]

/-- C7: in the sjtu extractor, an anchor text beginning with a date token
(any of the three separator styles) has that token extracted as the date
with separators normalised to dashes and stripped, with trailing
whitespace, from the front of the title; when the anchor text contains no
date token anywhere, the immediate parent's text is searched and its
leftmost date token, if any, supplies the date. -/
theorem C7_sjtu_date_extraction (base : String) (a : SjtuAnchor) (r : NewsRecord)
    (hp : parse_sjtu_item base a = some r) :
    (∀ tok rest, matchDateAt isSep3 a.text.data = some (tok, rest) →
        r.date = normSep3 tok
        ∧ r.title = pyStrip ⟨rest.dropWhile isWsChar⟩)
    ∧ (searchDateCs isSep3 a.text.data = none →
        ∀ p, a.parentText = some p →
        ∀ tok, searchDateCs isSep3 p.data = some tok →
          r.date = normSep3 tok) := by
  simp only [parse_sjtu_item] at hp
  split at hp
  · rename_i t hsearch
    split at hp
    · rw [Option.some.injEq] at hp
      subst hp
      constructor
      · intro tok rest hm
        have hs := searchDateCs_of_matchAt hm
        rw [hsearch, Option.some.injEq] at hs
        subst hs
        refine ⟨rfl, ?_⟩
        show pyStrip ⟨subLeadingDate isSep3 a.text.data⟩ = _
        unfold subLeadingDate
        rw [hm]
      · intro hnone
        rw [hsearch] at hnone
        cases hnone
    · exact absurd hp (by simp)
  · rename_i hsearch
    split at hp
    · rw [Option.some.injEq] at hp
      subst hp
      constructor
      · intro tok rest hm
        have hs := searchDateCs_of_matchAt hm
        rw [hsearch] at hs
        cases hs
      · intro _ p hparent tok hptok
        show (match a.parentText with
          | some p =>
            match searchDateCs isSep3 p.data with
            | some t => normSep3 t
            | none => ""
          | none => "") = normSep3 tok
        simp [hparent, hptok]
    · exact absurd hp (by simp)

/-- Witness for C7 at a leading-date anchor and a parent-date anchor. -/
theorem C7_witness :
    ((NewsRecord.date ⟨"上海交通大学", "新闻标题六个字", "2024-03-05",
        "https://tzb.sjtu.edu.cn/post/1"⟩ : String) = normSep3 "2024.03.05".data
      ∧ (NewsRecord.title ⟨"上海交通大学", "新闻标题六个字", "2024-03-05",
          "https://tzb.sjtu.edu.cn/post/1"⟩ : String)
        = pyStrip ⟨" 新闻标题六个字".data.dropWhile isWsChar⟩)
    ∧ (NewsRecord.date ⟨"上海交通大学", "新闻标题六个字", "2024-03-05",
        "https://tzb.sjtu.edu.cn/post/2"⟩ : String) = normSep3 "2024/03/05".data :=
  ⟨(C7_sjtu_date_extraction "https://tzb.sjtu.edu.cn"
      ⟨"2024.03.05 新闻标题六个字", "/post/1", none⟩ _ (by decide)).1
      "2024.03.05".data " 新闻标题六个字".data (by decide),
   (C7_sjtu_date_extraction "https://tzb.sjtu.edu.cn"
      ⟨"新闻标题六个字", "/post/2", some "2024/03/05"⟩ _ (by decide)).2
      (by decide) "2024/03/05" rfl "2024/03/05".data (by decide)⟩

/-- C8 counterexample: a date embedded as "2024/03/05" in raw source
text reaches the record unnormalised when it flows through a date-class
span (list-based extractor) or through the shsy feed's date field — both
records below carry date "2024/03/05", not "2024-03-05". -/
theorem C8_counterexample :
    parse_shsy_entry ⟨"公告通知", "2024/03/05", "detailpage/1.html"⟩
      = some ⟨"上海市社会主义学院", "公告通知", "2024/03/05",
          "https://www.shsy.org.cn/detailpage/1.html"⟩
    ∧ parse_listsite_item "复旦大学" "https://www.tzb.fudan.edu.cn"
        ⟨some ⟨"新闻标题有六个字", some "/2024/0305/c1a1/page.htm"⟩, some "2024/03/05", ""⟩
      = some ⟨"复旦大学", "新闻标题有六个字", "2024/03/05",
          "https://www.tzb.fudan.edu.cn/2024/0305/c1a1/page.htm"⟩
    ∧ ("2024/03/05" : String) ≠ "2024-03-05" := by decide

/-- C8 (amended): separator normalisation applies exactly to
regex-extracted date tokens — the sjtu extractor normalises dots and
slashes of the extracted token to dashes (so "2024.03.05" and
"2024/03/05" become "2024-03-05"), and the list-based extractors
normalise slashes of a token extracted from the item text when no
date-class span is present (their pattern admits no dots); a date read
verbatim from a date-class span or from the shsy feed is stored
unnormalised. -/
theorem C8_amended_regex_date_normalisation :
    (∀ base a r, parse_sjtu_item base a = some r →
        ∀ tok, searchDateCs isSep3 a.text.data = some tok →
          r.date = normSep3 tok)
    ∧ (∀ source base item r, item.spanDate = none →
        parse_listsite_item source base item = some r →
        ∀ tok, searchDateCs isSep2 item.itemText.data = some tok →
          r.date = ⟨replaceChar '/' '-' tok⟩)
    ∧ normSep3 "2024.03.05".data = "2024-03-05"
    ∧ normSep3 "2024/03/05".data = "2024-03-05" := by
  refine ⟨?_, ?_, by decide, by decide⟩
  · intro base a r hp tok hs
    simp only [parse_sjtu_item] at hp
    split at hp
    · rename_i t hsearch
      rw [hsearch, Option.some.injEq] at hs
      subst hs
      split at hp
      · rw [Option.some.injEq] at hp
        subst hp
        rfl
      · exact absurd hp (by simp)
    · rename_i hsearch
      rw [hsearch] at hs
      cases hs
  · intro source base item r hspan hp tok hs
    simp only [parse_listsite_item] at hp
    split at hp
    · exact absurd hp (by simp)
    · split at hp
      · exact absurd hp (by simp)
      · split at hp
        · exact absurd hp (by simp)
        · split at hp
          · rw [Option.some.injEq] at hp
            subst hp
            show (match item.spanDate with
              | some s => s
              | none =>
                match searchDateCs isSep2 item.itemText.data with
                | some t => (⟨replaceChar '/' '-' t⟩ : String)
                | none => "") = _
            simp [hspan, hs]
          · exact absurd hp (by simp)

/-- Witness for C8 (amended) at concrete sjtu and list-site items. -/
theorem C8_witness :
    (NewsRecord.date ⟨"上海交通大学", "新闻标题六个字", "2024-03-05",
        "https://tzb.sjtu.edu.cn/post/1"⟩ : String) = normSep3 "2024.03.05".data
    ∧ (NewsRecord.date ⟨"复旦大学", "新闻标题有六个字", "2024-03-05",
        "https://www.tzb.fudan.edu.cn/2024/0305/c1a1/page.htm"⟩ : String)
      = ⟨replaceChar '/' '-' "2024/03/05".data⟩ :=
  ⟨C8_amended_regex_date_normalisation.1 "https://tzb.sjtu.edu.cn"
      ⟨"2024.03.05 新闻标题六个字", "/post/1", none⟩ _ (by decide)
      "2024.03.05".data (by decide),
   C8_amended_regex_date_normalisation.2.1 "复旦大学" "https://www.tzb.fudan.edu.cn"
      ⟨some ⟨"新闻标题有六个字", some "/2024/0305/c1a1/page.htm"⟩, none, "发布于2024/03/05"⟩ _
      rfl (by decide) "2024/03/05".data (by decide)⟩

/-- A site whose fetch succeeds and whose parser key is present yields
its parser's records and no error. -/
theorem scrape_university_ok {fetch : String → Option String}
    {impl : String → String → String → List NewsRecord}
    {n : String} {c : SiteConfig} {html : String}
    (hf : fetch c.url = some html)
    (hk : parserKeys.contains c.parserKey = true) :
    scrape_university fetch (PARSERS impl) n c
      = (n, impl c.parserKey html c.base_url, none) := by
  simp only [scrape_university, hf, PARSERS, hk, if_true]

/-- A site whose fetch fails yields no records and the timeout error. -/
theorem scrape_university_fail {fetch : String → Option String}
    {impl : String → String → String → List NewsRecord}
    {n : String} {c : SiteConfig}
    (hf : fetch c.url = none) :
    scrape_university fetch (PARSERS impl) n c
      = (n, [], some (n ++ "网站访问超时或失败")) := by
  simp only [scrape_university, hf]

/-- Sites that all fetch successfully and have parsers contribute no
error strings. -/
theorem errors_nil_of_all_ok {fetch : String → Option String}
    {impl : String → String → String → List NewsRecord} :
    ∀ sites : List (String × SiteConfig),
    (∀ p ∈ sites, fetch p.2.url ≠ none ∧ parserKeys.contains p.2.parserKey = true) →
    ((sites.map fun p => scrape_university fetch (PARSERS impl) p.1 p.2).filterMap
      (fun t => t.2.2)) = []
  | [], _ => rfl
  | p :: rest, h => by
    obtain ⟨hne, hk⟩ := h p (List.mem_cons_self p rest)
    obtain ⟨html, hf⟩ := Option.ne_none_iff_exists'.mp hne
    rw [List.map_cons, List.filterMap_cons, scrape_university_ok hf hk]
    exact errors_nil_of_all_ok rest (fun q hq => h q (List.mem_cons_of_mem p hq))

/-- With exactly one failing site among pairwise-distinct URLs, the
collected error list is exactly that site's timeout message. -/
theorem errors_single_of_one_fail {fetch : String → Option String}
    {impl : String → String → String → List NewsRecord}
    {failName : String} {failCfg : SiteConfig} :
    ∀ sites : List (String × SiteConfig),
    (∀ p ∈ sites, parserKeys.contains p.2.parserKey = true) →
    (failName, failCfg) ∈ sites →
    sites.Pairwise (fun p q => p.2.url ≠ q.2.url) →
    fetch failCfg.url = none →
    (∀ p ∈ sites, p.2.url ≠ failCfg.url → fetch p.2.url ≠ none) →
    ((sites.map fun p => scrape_university fetch (PARSERS impl) p.1 p.2).filterMap
      (fun t => t.2.2)) = [failName ++ "网站访问超时或失败"]
  | [], _, hmem, _, _, _ => absurd hmem (List.not_mem_nil _)
  | p :: rest, hkeys, hmem, hdist, hfail, hok => by
    rw [List.pairwise_cons] at hdist
    rcases List.mem_cons.mp hmem with heq | hmem'
    · subst heq
      rw [List.map_cons, List.filterMap_cons, scrape_university_fail hfail]
      rw [errors_nil_of_all_ok rest ?_]
      intro q hq
      refine ⟨hok q (List.mem_cons_of_mem _ hq) (hdist.1 q hq).symm,
        hkeys q (List.mem_cons_of_mem _ hq)⟩
    · have hpne : p.2.url ≠ failCfg.url := hdist.1 (failName, failCfg) hmem'
      obtain ⟨html, hf⟩ :=
        Option.ne_none_iff_exists'.mp (hok p (List.mem_cons_self p rest) hpne)
      rw [List.map_cons, List.filterMap_cons, scrape_university_ok hf
        (hkeys p (List.mem_cons_self p rest))]
      exact errors_single_of_one_fail rest
        (fun q hq => hkeys q (List.mem_cons_of_mem p hq)) hmem' hdist.2 hfail
        (fun q hq => hok q (List.mem_cons_of_mem p hq))

/-- C4: with the fetch failing for exactly one configured site and
succeeding for the rest, the aggregator still carries every record of
every other site's extractor, and its error list is exactly the one
timeout message naming the failed site. -/
theorem C4_fault_isolation
    (impl : String → String → String → List NewsRecord)
    (fetch : String → Option String)
    (results : List (String × List NewsRecord × Option String))
    (failName : String) (failCfg : SiteConfig)
    (hperm : results.Perm (UNIVERSITIES.map fun p =>
        scrape_university fetch (PARSERS impl) p.1 p.2))
    (hmem : (failName, failCfg) ∈ UNIVERSITIES)
    (hfail : fetch failCfg.url = none)
    (hok : ∀ p ∈ UNIVERSITIES, p.2.url ≠ failCfg.url → fetch p.2.url ≠ none) :
    (scrape_all_universities results).2 = [failName ++ "网站访问超时或失败"]
    ∧ ∀ p ∈ UNIVERSITIES, p.2.url ≠ failCfg.url →
        ∀ html, fetch p.2.url = some html →
        ∀ r ∈ impl p.2.parserKey html p.2.base_url,
          r ∈ (scrape_all_universities results).1 := by
  have hkeys : ∀ p ∈ UNIVERSITIES, parserKeys.contains p.2.parserKey = true := by decide
  have hdist : UNIVERSITIES.Pairwise (fun p q => p.2.url ≠ q.2.url) := by decide
  constructor
  · have hsingle := @errors_single_of_one_fail fetch impl failName failCfg
      UNIVERSITIES hkeys hmem hdist hfail hok
    have hp2 := hperm.filterMap (fun t => t.2.2)
    rw [hsingle] at hp2
    exact hp2.eq_singleton
  · intro p hp hpne html hf r hr
    have hout : ((scrape_all_universities results).1).Perm
        (((UNIVERSITIES.map fun q =>
            scrape_university fetch (PARSERS impl) q.1 q.2).map
          (fun t => t.2.1)).flatten) :=
      (List.perm_insertionSort newsGe _).trans ((hperm.map (fun t => t.2.1)).flatten)
    refine hout.mem_iff.mpr (List.mem_flatten.mpr ⟨impl p.2.parserKey html p.2.base_url, ?_, hr⟩)
    refine List.mem_map.mpr ⟨scrape_university fetch (PARSERS impl) p.1 p.2, List.mem_map_of_mem _ hp, ?_⟩
    rw [scrape_university_ok hf (hkeys p hp)]

/-- Witness for C4: the fudan fetch times out, every other site returns
one record; the aggregator reports exactly the fudan error and still
contains the other sites' record. -/
theorem C4_witness :
    (scrape_all_universities (UNIVERSITIES.map fun p =>
        scrape_university
          (fun u => if u = "https://www.tzb.fudan.edu.cn/20423/list.htm"
                    then none else some "页")
          (PARSERS fun _ _ _ => [⟨"站", "新闻标题六个字", "2024-01-01", "https://x/1"⟩])
          p.1 p.2)).2
      = ["复旦大学" ++ "网站访问超时或失败"]
    ∧ (⟨"站", "新闻标题六个字", "2024-01-01", "https://x/1"⟩ : NewsRecord)
        ∈ (scrape_all_universities (UNIVERSITIES.map fun p =>
            scrape_university
              (fun u => if u = "https://www.tzb.fudan.edu.cn/20423/list.htm"
                        then none else some "页")
              (PARSERS fun _ _ _ => [⟨"站", "新闻标题六个字", "2024-01-01", "https://x/1"⟩])
              p.1 p.2)).1 := by
  have h := C4_fault_isolation
    (fun _ _ _ => [⟨"站", "新闻标题六个字", "2024-01-01", "https://x/1"⟩])
    (fun u => if u = "https://www.tzb.fudan.edu.cn/20423/list.htm"
              then none else some "页")
    (UNIVERSITIES.map fun p =>
      scrape_university
        (fun u => if u = "https://www.tzb.fudan.edu.cn/20423/list.htm"
                  then none else some "页")
        (PARSERS fun _ _ _ => [⟨"站", "新闻标题六个字", "2024-01-01", "https://x/1"⟩])
        p.1 p.2)
    "复旦大学"
    ⟨"https://www.tzb.fudan.edu.cn/20423/list.htm", "https://www.tzb.fudan.edu.cn", "fudan"⟩
    (List.Perm.refl _) (by decide) (by decide) (by decide)
  refine ⟨h.1, ?_⟩
  exact h.2 ("上海交通大学", ⟨"https://tzb.sjtu.edu.cn/news", "https://tzb.sjtu.edu.cn", "sjtu"⟩)
    (by decide) (by decide) "页" (by decide) _ (List.mem_cons_self _ _)
